import Mathlib

/-!
Verification of the VPS auto-renewal script (`main.mjs`).

The development shallowly embeds the decision logic of the script:
the date-normalization helper `formatChineseDate`, the previous-day
computation `getNextRenewAvailableDate` (including the ECMAScript
`Date` calendar arithmetic it relies on), the CAPTCHA retry loop, the
"too early to renew" branch, the post-renewal outcome classification,
and the cleanup/notification phase.  Browser navigation, HTTP calls
and the clock are treated as an environment supplying their results.
-/

namespace Vps

/-! ### Character-level helpers for the regexes used by the script -/

/-- JavaScript `\d`: an ASCII decimal digit. -/
def isAsciiDigit (c : Char) : Bool := c.isDigit

/-- Match exactly `n` digits (`\d{n}`); return captured digits and the rest. -/
def takeDigits : Nat → List Char → Option (List Char × List Char)
  | 0, cs => some ([], cs)
  | _ + 1, [] => none
  | n + 1, c :: cs =>
    if isAsciiDigit c then
      match takeDigits n cs with
      | some (ds, rest) => some (c :: ds, rest)
      | none => none
    else none

/-- Match `\d{1,2}` (greedy, with backtracking) followed by the literal
character `lit`; return the captured digits and the rest after `lit`.
The literals used (`月`, `日`) are not digits, so a greedy two-digit
match that is not followed by `lit` cannot back off to a one-digit
match: the character after the first digit is a digit, not `lit`. -/
def takeOneOrTwoDigits (lit : Char) : List Char → Option (List Char × List Char)
  | a :: b :: rest =>
    if isAsciiDigit a then
      if isAsciiDigit b then
        match rest with
        | l :: rest2 => if l = lit then some ([a, b], rest2) else none
        | [] => none
      else if b = lit then some ([a], rest) else none
    else none
  | _ => none

/-- Try the pattern `(\d{4})年(\d{1,2})月(\d{1,2})日` at the start of the
list: captures `(year, month, day)` and the remainder after `日`. -/
def matchDate12At (cs : List Char) : Option ((List Char × List Char × List Char) × List Char) :=
  match takeDigits 4 cs with
  | none => none
  | some (y, r1) =>
    match r1 with
    | [] => none
    | c :: r2 =>
      if c = '年' then
        match takeOneOrTwoDigits '月' r2 with
        | none => none
        | some (mo, r3) =>
          match takeOneOrTwoDigits '日' r3 with
          | none => none
          | some (d, r4) => some ((y, mo, d), r4)
      else none

/-- Try the pattern `(\d{4})年(\d{2})月(\d{2})日` at the start of the list. -/
def matchDate22At (cs : List Char) : Option ((List Char × List Char × List Char) × List Char) :=
  match takeDigits 4 cs with
  | none => none
  | some (y, r1) =>
    match r1 with
    | [] => none
    | c :: r2 =>
      if c = '年' then
        match takeDigits 2 r2 with
        | none => none
        | some (mo, r3) =>
          match r3 with
          | [] => none
          | c2 :: r4 =>
            if c2 = '月' then
              match takeDigits 2 r4 with
              | none => none
              | some (d, r5) =>
                match r5 with
                | [] => none
                | c3 :: r6 => if c3 = '日' then some ((y, mo, d), r6) else none
            else none
      else none

/-- Leftmost match of `(\d{4})年(\d{1,2})月(\d{1,2})日` anywhere in the list
(the semantics of JavaScript `String.prototype.match` without `/g`). -/
def findDate12 : List Char → Option (List Char × List Char × List Char)
  | [] => none
  | c :: cs =>
    match matchDate12At (c :: cs) with
    | some (caps, _) => some caps
    | none => findDate12 cs

/-- Leftmost match of `(\d{4})年(\d{2})月(\d{2})日` anywhere in the list. -/
def findDate22 : List Char → Option (List Char × List Char × List Char)
  | [] => none
  | c :: cs =>
    match matchDate22At (c :: cs) with
    | some (caps, _) => some caps
    | none => findDate22 cs

/-- JavaScript `String.prototype.includes`: `pat` occurs as a contiguous substring. -/
def hasSubstr (pat : List Char) : List Char → Bool
  | [] => pat.isEmpty
  | c :: cs => List.isPrefixOf pat (c :: cs) || hasSubstr pat cs

/-- JavaScript `String.prototype.trim`. -/
def jsTrim (s : String) : String :=
  ⟨((s.data.dropWhile Char.isWhitespace).reverse.dropWhile Char.isWhitespace).reverse⟩

/-- JavaScript `String(n).padStart(2, '0')`. -/
def padStart2 (s : String) : String :=
  if s.length < 2 then ⟨List.replicate (2 - s.length) '0'⟩ ++ s else s

/-- JavaScript `Number(s)` for a non-empty all-digit capture. -/
def digitsVal (cs : List Char) : Nat := cs.foldl (fun a c => a * 10 + (c.toNat - 48)) 0

/-- The decimal digit character for `n % 10`. -/
def digitChar (n : Nat) : Char := Char.ofNat (48 + n % 10)

/-- Fuel-based recursion for `natToChars` (the fuel strictly dominates
the number, so it never runs out). -/
def natToCharsAux : Nat → Nat → List Char
  | 0, _ => []
  | fuel + 1, n =>
    if n < 10 then [digitChar n]
    else natToCharsAux fuel (n / 10) ++ [digitChar (n % 10)]

/-- The decimal digit characters of `n` (the rendering used by
JavaScript `String(n)` for a non-negative integer). -/
def natToChars (n : Nat) : List Char := natToCharsAux (n + 1) n

/-- JavaScript `String(n)` for an integer. -/
def intToStringJs (n : Int) : String :=
  if n < 0 then "-" ++ ⟨natToChars (-n).toNat⟩ else ⟨natToChars n.toNat⟩

/-! ### `formatChineseDate` (main.mjs, lines 10–15)

```
function formatChineseDate(dateStr) {
    const m = dateStr && dateStr.match(/(\d{4})年(\d{1,2})月(\d{1,2})日/);
    if (!m) return dateStr || '未知';
    const [, y, mo, d] = m;
    return `${y}年${String(mo).padStart(2, '0')}月${String(d).padStart(2, '0')}日`;
}
```
-/

def formatChineseDate (dateStr : String) : String :=
  if dateStr = "" then "未知"
  else
    match findDate12 dateStr.data with
    | none => dateStr
    | some (y, mo, d) =>
      (⟨y⟩ : String) ++ "年" ++ padStart2 ⟨mo⟩ ++ "月" ++ padStart2 ⟨d⟩ ++ "日"

/-! ### ECMAScript `Date` calendar arithmetic

`getNextRenewAvailableDate` builds `new Date(y, mo - 1, d)`, runs
`dt.setDate(dt.getDate() - 1)` and reads the components back.  The
embedding follows the ECMAScript specification of `MakeDay`,
`YearFromTime`, `MonthFromTime` and `DateFromTime`, working directly
with day numbers (days since the epoch 1970-01-01). -/

/-- ECMAScript `DayFromYear`. -/
def dayFromYear (y : Int) : Int :=
  365 * (y - 1970) + (y - 1969) / 4 - (y - 1901) / 100 + (y - 1601) / 400

/-- ECMAScript `DaysInYear`. -/
def daysInYear (y : Int) : Int :=
  if y % 4 ≠ 0 then 365
  else if y % 100 ≠ 0 then 366
  else if y % 400 ≠ 0 then 365
  else 366

/-- ECMAScript `InLeapYear`, as the 0/1 adjustment used by the tables. -/
def leapInt (y : Int) : Int := if daysInYear y = 366 then 1 else 0

/-- Cumulative day count before 0-based month `m` (the thresholds of
ECMAScript `MonthFromTime`), with leap adjustment `L`. -/
def cumDaysBeforeMonth (L m : Int) : Int :=
  if m ≤ 0 then 0
  else if m ≤ 1 then 31
  else if m ≤ 2 then 59 + L
  else if m ≤ 3 then 90 + L
  else if m ≤ 4 then 120 + L
  else if m ≤ 5 then 151 + L
  else if m ≤ 6 then 181 + L
  else if m ≤ 7 then 212 + L
  else if m ≤ 8 then 243 + L
  else if m ≤ 9 then 273 + L
  else if m ≤ 10 then 304 + L
  else if m ≤ 11 then 334 + L
  else 365 + L

/-- Linear first guess for `YearFromTime` (146097 days per 400 years). -/
def yearFromDayGuess (t : Int) : Int := 1970 + (400 * t) / 146097

/-- ECMAScript `YearFromTime` on day numbers: the unique `y` with
`dayFromYear y ≤ t < dayFromYear (y + 1)`, computed from the linear
guess corrected within a window of ±2. -/
def yearFromDay (t : Int) : Int :=
  if t < dayFromYear (yearFromDayGuess t - 1) then yearFromDayGuess t - 2
  else if t < dayFromYear (yearFromDayGuess t) then yearFromDayGuess t - 1
  else if t < dayFromYear (yearFromDayGuess t + 1) then yearFromDayGuess t
  else if t < dayFromYear (yearFromDayGuess t + 2) then yearFromDayGuess t + 1
  else yearFromDayGuess t + 2

/-- ECMAScript `DayWithinYear`. -/
def dayWithinYear (t : Int) : Int := t - dayFromYear (yearFromDay t)

/-- ECMAScript `MonthFromTime` (0-based month). -/
def monthFromDay (t : Int) : Int :=
  if dayWithinYear t < 31 then 0
  else if dayWithinYear t < 59 + leapInt (yearFromDay t) then 1
  else if dayWithinYear t < 90 + leapInt (yearFromDay t) then 2
  else if dayWithinYear t < 120 + leapInt (yearFromDay t) then 3
  else if dayWithinYear t < 151 + leapInt (yearFromDay t) then 4
  else if dayWithinYear t < 181 + leapInt (yearFromDay t) then 5
  else if dayWithinYear t < 212 + leapInt (yearFromDay t) then 6
  else if dayWithinYear t < 243 + leapInt (yearFromDay t) then 7
  else if dayWithinYear t < 273 + leapInt (yearFromDay t) then 8
  else if dayWithinYear t < 304 + leapInt (yearFromDay t) then 9
  else if dayWithinYear t < 334 + leapInt (yearFromDay t) then 10
  else 11

/-- ECMAScript `DateFromTime` (1-based day of month). -/
def dateFromDay (t : Int) : Int :=
  dayWithinYear t - cumDaysBeforeMonth (leapInt (yearFromDay t)) (monthFromDay t) + 1

/-- ECMAScript `MakeDay` (0-based month, arbitrary overflow handling):
the day number of day `date` of month `month mod 12` in year
`year + month div 12`. -/
def makeDay (year month date : Int) : Int :=
  dayFromYear (year + month / 12) +
    cumDaysBeforeMonth (leapInt (year + month / 12)) (month % 12) + (date - 1)

/-! ### `getNextRenewAvailableDate` (main.mjs, lines 20–27)

```
function getNextRenewAvailableDate(chineseDate) {
    const m = chineseDate.match(/(\d{4})年(\d{2})月(\d{2})日/);
    if (!m) return '未知';
    const [_, y, mo, d] = m;
    const dt = new Date(Number(y), Number(mo) - 1, Number(d));
    dt.setDate(dt.getDate() - 1); // 前一天
    return `${dt.getFullYear()}年${String(dt.getMonth() + 1).padStart(2, '0')}月${String(dt.getDate()).padStart(2, '0')}日`;
}
```

`new Date(y, m, d)` maps a year argument in `[0, 99]` to `1900 + y`
(ECMAScript `MakeFullYear`); `setDate(n)` recomputes the day number as
`MakeDay(YearFromTime(t), MonthFromTime(t), n)`. -/

/-- The body of `getNextRenewAvailableDate` on the parsed numbers
`y = Number(m[1])`, `mo = Number(m[2])`, `d = Number(m[3])`:
`new Date(y, mo - 1, d)` (with the two-digit-year rule), then
`dt.setDate(dt.getDate() - 1)`, then the formatted components. -/
def getNextRenewAvailableDateNum (y mo d : Int) : String :=
  let yy := if 0 ≤ y ∧ y ≤ 99 then 1900 + y else y
  let t0 := makeDay yy (mo - 1) d
  let t := makeDay (yearFromDay t0) (monthFromDay t0) (dateFromDay t0 - 1)
  intToStringJs (yearFromDay t) ++ "年" ++
    padStart2 (intToStringJs (monthFromDay t + 1)) ++ "月" ++
    padStart2 (intToStringJs (dateFromDay t)) ++ "日"

def getNextRenewAvailableDate (chineseDate : String) : String :=
  match findDate22 chineseDate.data with
  | none => "未知"
  | some (yC, moC, dC) =>
    getNextRenewAvailableDateNum (digitsVal yC) (digitsVal moC) (digitsVal dC)

/-! ### Reference calendar notions used to state claim C10

These definitions follow the claim's words ("the calendar day
immediately preceding it", with the usual Gregorian month lengths), not
the script; the theorems compare the script's function against them. -/

/-- Gregorian leap-year rule. -/
def isLeapYearG (y : Int) : Bool :=
  if (y % 4 = 0 ∧ y % 100 ≠ 0) ∨ y % 400 = 0 then true else false

/-- Number of days of month `m` (1-based) in year `y`. -/
def monthLength (y m : Int) : Int :=
  if m = 2 then (if isLeapYearG y then 29 else 28)
  else if m = 4 ∨ m = 6 ∨ m = 9 ∨ m = 11 then 30
  else 31

/-- The calendar day immediately preceding `(y, m, d)` (month 1-based),
rolling over month and year boundaries. -/
def prevCalendarDay (y m d : Int) : Int × Int × Int :=
  if 2 ≤ d then (y, m, d - 1)
  else if 2 ≤ m then (y, m - 1, monthLength y (m - 1))
  else (y - 1, 12, 31)

/-- Rendering of a date as `YYYY年MM月DD日`, with the exact formatting
the script uses for its output (unpadded year, two-digit-padded month
and day); for years 1000–9999 this is the zero-padded form of C10. -/
def chineseDateStr (y m d : Int) : String :=
  intToStringJs y ++ "年" ++ padStart2 (intToStringJs m) ++ "月" ++
    padStart2 (intToStringJs d) ++ "日"

/-! ### The CAPTCHA retry loop (main.mjs, lines 207–268)

Each iteration of the `for` loop consults the page: either no inline
`data:` image is present, or recognition fails on the network, or the
recognition service returns a code (and, if the code is filled and
submitted, navigation either happens within the timeout or not). -/

inductive CaptchaAttemptInput
  | noCaptcha (pageContent : String)
  | netFailure
  | code (c : String) (navFulfilled : Bool)

/-- Events issued through the `fs` module. -/
inductive FsEvent
  | write (name content : String)
  | remove (name : String)
deriving DecidableEq

/-- Observable behaviour of one iteration of the CAPTCHA loop. -/
structure AttemptResult where
  solved : Bool
  fills : List String
  screenshot : Bool
  fsWrites : List FsEvent
  reloaded : Bool
deriving DecidableEq

/-- One iteration of the CAPTCHA loop body. -/
def captchaAttemptStep : CaptchaAttemptInput → AttemptResult
  | .noCaptcha content =>
    { solved := true, fills := [], screenshot := false
      fsWrites := [.write "no_captcha.html" content], reloaded := false }
  | .netFailure =>
    { solved := false, fills := [], screenshot := true, fsWrites := [], reloaded := false }
  | .code c nav =>
    if c = "" ∨ c.length < 4 then
      { solved := false, fills := [], screenshot := true, fsWrites := [], reloaded := false }
    else if nav then
      { solved := true, fills := [c], screenshot := false, fsWrites := [], reloaded := false }
    else
      { solved := false, fills := [c], screenshot := false, fsWrites := [], reloaded := true }

/-- Accumulated behaviour of the CAPTCHA loop. -/
structure CaptchaResult where
  solved : Bool
  attemptsUsed : Nat
  fills : List String
  screenshots : Nat
  fsWrites : List FsEvent
  reloads : Nat
deriving DecidableEq

/-- The loop `for (let attempt = 1; attempt <= maxCaptchaTries; attempt++)`,
with `fuel` remaining iterations. -/
def captchaLoopFrom (env : Nat → CaptchaAttemptInput) (attempt : Nat) : Nat → CaptchaResult
  | 0 => { solved := false, attemptsUsed := 0, fills := [], screenshots := 0, fsWrites := [], reloads := 0 }
  | fuel + 1 =>
    let r := captchaAttemptStep (env attempt)
    if r.solved then
      { solved := true, attemptsUsed := 1, fills := r.fills
        screenshots := if r.screenshot then 1 else 0
        fsWrites := r.fsWrites
        reloads := if r.reloaded then 1 else 0 }
    else
      let rest := captchaLoopFrom env (attempt + 1) fuel
      { solved := rest.solved, attemptsUsed := rest.attemptsUsed + 1
        fills := r.fills ++ rest.fills
        screenshots := (if r.screenshot then 1 else 0) + rest.screenshots
        fsWrites := r.fsWrites ++ rest.fsWrites
        reloads := (if r.reloaded then 1 else 0) + rest.reloads }

/-- The constant `maxCaptchaTries` of the script (3). -/
def maxCaptchaTries : Nat := 3

def runCaptcha (captcha : Nat → CaptchaAttemptInput) : CaptchaResult :=
  captchaLoopFrom captcha 1 maxCaptchaTries

/-! ### Outcome classification and messages (main.mjs, lines 270–321) -/

inductive Outcome
  | success
  | unchanged
  | notYetEligible
  | error
deriving DecidableEq

/-- JavaScript `s || d` on strings. -/
def orDefault (s d : String) : String := if s = "" then d else s

def notYetTimeMarker : String := "利用期限の1日前から更新手続きが可能です"

def eligibleSuffix : String := "以降にお試しください"

/-- Leftmost match of `(\d{4}年\d{1,2}月\d{1,2}日)以降にお試しください`;
returns capture group 1 (the date substring as it appears). -/
def findEligibleDateFrom : List Char → Option String
  | [] => none
  | c :: cs =>
    match matchDate12At (c :: cs) with
    | some ((y, mo, d), rest) =>
      if List.isPrefixOf eligibleSuffix.data rest then
        some ⟨y ++ '年' :: mo ++ '月' :: d ++ ['日']⟩
      else findEligibleDateFrom cs
    | none => findEligibleDateFrom cs

def notYetMessage (renewAvailableDate currentExpireDate now : String) : String :=
  "🗓️ 未到续费时间\n\n网站提示需要到期前一天才能操作。\n可续期日期: `" ++
    orDefault renewAvailableDate "未知" ++ "`\n当前到期日: `" ++
    orDefault currentExpireDate "未知" ++ "`\n\n北京时间: " ++ now

def successMessage (newExpireDate nextRenewDate now : String) : String :=
  "🎉 VPS 续费成功！\n\n- 新到期日: `" ++ orDefault newExpireDate "无" ++
    "`\n- 下次可续期日期: `" ++ nextRenewDate ++ "`\n\n北京时间: " ++ now

def unchangedMessage (newExpireDate now : String) : String :=
  "⚠️ VPS 续费失败或未执行！\n\n到期日未发生变化，当前仍为: `" ++ newExpireDate ++
    "`\n请检查录屏或日志确认续期流程是否正常。\n\n北京时间: " ++ now

def errorMessage (msg now : String) : String :=
  "🚨 **VPS 续期脚本执行出错** 🚨\n\n错误信息: `" ++ msg ++ "`\n\n北京时间: " ++ now

def noDateErrorText : String := "无法找到 VPS 到期日。续期后未能定位到期日，脚本可能需要更新。"

def captchaFailText : String := "验证码识别失败：尝试多次未成功"

/-- Result of the post-renewal re-read and classification block. -/
structure PostRenewalResult where
  outcome : Outcome
  infoMessage : String
  fileWrite : Option String
  thrownMessage : Option String
deriving DecidableEq

/-- The classification `if/else` after the renewal confirmation
(main.mjs, lines 295–316).  `currentExpireDate` is the pre-renewal
read, in scope but not consulted by this block. -/
def postRenewalStep (lastExpireDate currentExpireDate newExpireDateRaw now : String) :
    PostRenewalResult :=
  let newExpireDate := formatChineseDate newExpireDateRaw
  let nextRenewDate := getNextRenewAvailableDate newExpireDate
  if newExpireDate ≠ "" ∧ newExpireDate ≠ formatChineseDate lastExpireDate then
    { outcome := .success
      infoMessage := successMessage newExpireDate nextRenewDate now
      fileWrite := some newExpireDate
      thrownMessage := none }
  else if newExpireDate ≠ "" then
    { outcome := .unchanged
      infoMessage := unchangedMessage newExpireDate now
      fileWrite := none
      thrownMessage := none }
  else
    { outcome := .error
      infoMessage := ""
      fileWrite := none
      thrownMessage := some noDateErrorText }

/-! ### The whole run -/

/-- Responses of the external world (page, recognition service, disk,
upload service, clock) consumed during one run.  `earlyError` models a
navigation/login step before the CAPTCHA phase throwing. -/
structure Env where
  fileExists : Bool
  fileContent : String
  earlyError : Option String
  currentExpireDateRaw : String
  captcha : Nat → CaptchaAttemptInput
  bodyText : String
  newExpireDateRaw : String
  recordingExists : Bool
  webdavResult : String
  telegramConfigured : Bool
  now : String

/-- Observable result of the `try` block. -/
structure TryResult where
  scriptErrorMessage : String
  infoMessage : String
  fsWrites : List FsEvent
  captchaFills : List String
  captchaAttempts : Nat
  captchaScreenshots : Nat
  finalConfirmClicked : Bool
  renewAvailableDate : String
  currentExpireDate : String
  outcome : Outcome
deriving DecidableEq

def runTry (env : Env) : TryResult :=
  let lastExpireDate := if env.fileExists then jsTrim env.fileContent else ""
  match env.earlyError with
  | some msg =>
    { scriptErrorMessage := errorMessage msg env.now, infoMessage := ""
      fsWrites := [], captchaFills := [], captchaAttempts := 0, captchaScreenshots := 0
      finalConfirmClicked := false, renewAvailableDate := "", currentExpireDate := ""
      outcome := .error }
  | none =>
    let currentExpireDate := formatChineseDate env.currentExpireDateRaw
    let cap := runCaptcha env.captcha
    if cap.solved = false then
      { scriptErrorMessage := errorMessage captchaFailText env.now, infoMessage := ""
        fsWrites := cap.fsWrites, captchaFills := cap.fills
        captchaAttempts := cap.attemptsUsed, captchaScreenshots := cap.screenshots
        finalConfirmClicked := false, renewAvailableDate := ""
        currentExpireDate := currentExpireDate, outcome := .error }
    else if hasSubstr notYetTimeMarker.data env.bodyText.data then
      let renewAvailableDate :=
        match findEligibleDateFrom env.bodyText.data with
        | some m1 => formatChineseDate m1
        | none => ""
      { scriptErrorMessage := ""
        infoMessage := notYetMessage renewAvailableDate currentExpireDate env.now
        fsWrites := cap.fsWrites, captchaFills := cap.fills
        captchaAttempts := cap.attemptsUsed, captchaScreenshots := cap.screenshots
        finalConfirmClicked := false, renewAvailableDate := renewAvailableDate
        currentExpireDate := currentExpireDate, outcome := .notYetEligible }
    else
      let post := postRenewalStep lastExpireDate currentExpireDate env.newExpireDateRaw env.now
      { scriptErrorMessage :=
          match post.thrownMessage with
          | some m => errorMessage m env.now
          | none => ""
        infoMessage := post.infoMessage
        fsWrites := cap.fsWrites ++
          (match post.fileWrite with
           | some content => [FsEvent.write "expire.txt" content]
           | none => [])
        captchaFills := cap.fills
        captchaAttempts := cap.attemptsUsed, captchaScreenshots := cap.screenshots
        finalConfirmClicked := true, renewAvailableDate := ""
        currentExpireDate := currentExpireDate, outcome := post.outcome }

/-- Observable result of the whole process (`try` block plus the
`finally` cleanup/notification phase). -/
structure RunResult where
  tryResult : TryResult
  cleanupRuns : Nat
  webdavMessage : String
  finalNotification : String
  telegramCalls : Nat
  telegramDeliveries : Nat
deriving DecidableEq

/-- The `finally` block (main.mjs, lines 322–355). -/
def runCleanup (env : Env) (tr : TryResult) : RunResult :=
  let webdavMessage := if env.recordingExists then env.webdavResult else ""
  let finalNotification :=
    if tr.scriptErrorMessage ≠ "" then
      tr.scriptErrorMessage ++ (if webdavMessage ≠ "" then "\n\n---\n" ++ webdavMessage else "")
    else if tr.infoMessage ≠ "" then
      tr.infoMessage ++ (if webdavMessage ≠ "" then "\n\n---\n" ++ webdavMessage else "")
    else webdavMessage
  { tryResult := tr, cleanupRuns := 1, webdavMessage := webdavMessage
    finalNotification := finalNotification
    telegramCalls := if finalNotification ≠ "" then 1 else 0
    telegramDeliveries :=
      if finalNotification ≠ "" ∧ env.telegramConfigured then 1 else 0 }

def runScript (env : Env) : RunResult := runCleanup env (runTry env)

/-- Writes performed on the file named `name`. -/
def writesTo (name : String) (evs : List FsEvent) : List String :=
  evs.filterMap fun e =>
    match e with
    | .write n content => if n = name then some content else none
    | .remove _ => none

/-! ### Concrete runs used as witnesses -/

/-- A run in which the renewal succeeds and the date changes
(persisted `"2025-07-07"`, fresh read `2025年08月07日`). -/
def envSuccess : Env :=
  { fileExists := true, fileContent := "2025-07-07", earlyError := none
    currentExpireDateRaw := "2025年8月7日"
    captcha := fun _ => CaptchaAttemptInput.noCaptcha "<html>"
    bodyText := "手続きが完了しました"
    newExpireDateRaw := "2025年08月07日"
    recordingExists := false, webdavResult := "", telegramConfigured := true
    now := "2025-08-06 21:20" }

/-- A run in which the freshly read date equals the persisted one. -/
def envUnchanged : Env :=
  { envSuccess with fileContent := "2025年08月07日" }

/-- A run in which every CAPTCHA attempt yields a too-short code. -/
def envCaptchaExhausted : Env :=
  { envSuccess with captcha := fun _ => CaptchaAttemptInput.code "ab" true }

/-- A run in which a CAPTCHA is present and solved, and the page then
shows the "too early to renew" marker with an eligible date. -/
def envNotYet : Env :=
  { envSuccess with
    captcha := fun _ => CaptchaAttemptInput.code "12345" true
    bodyText := "利用期限の1日前から更新手続きが可能です 2025年09月06日以降にお試しください" }

end Vps

-- Concrete evaluations of the embedded functions.
example : Vps.formatChineseDate "2025年7月7日" = "2025年07月07日" := by decide
example : Vps.formatChineseDate "" = "未知" := by decide
example : Vps.formatChineseDate "2025-07-07" = "2025-07-07" := by decide
example : Vps.formatChineseDate "abc2025年12月31日xyz" = "2025年12月31日" := by decide
example : Vps.getNextRenewAvailableDate "2025年03月01日" = "2025年02月28日" := by decide
example : Vps.getNextRenewAvailableDate "2025年01月01日" = "2024年12月31日" := by decide
example : Vps.getNextRenewAvailableDate "2024年03月01日" = "2024年02月29日" := by decide
example : Vps.getNextRenewAvailableDate "2025年7月7日" = "未知" := by decide
example : Vps.getNextRenewAvailableDate "2025年08月07日" = "2025年08月06日" := by decide
example : Vps.getNextRenewAvailableDate "0099年01月01日" = "1998年12月31日" := by decide
example : Vps.getNextRenewAvailableDate "2000年03月01日" = "2000年02月29日" := by decide
example : Vps.getNextRenewAvailableDate "1900年03月01日" = "1900年02月28日" := by decide
example : Vps.jsTrim " 2025年07月07日\n" = "2025年07月07日" := by decide
example : Vps.hasSubstr "限の1".data "利用期限の1日前".data = true := by decide


/-! ## Calendar arithmetic lemmas -/

namespace Vps

theorem dayFromYear_succ (y : Int) : dayFromYear (y + 1) = dayFromYear y + daysInYear y := by
  unfold dayFromYear daysInYear
  split_ifs <;> omega

theorem daysInYear_bounds (y : Int) : 365 ≤ daysInYear y ∧ daysInYear y ≤ 366 := by
  unfold daysInYear
  split_ifs <;> omega

theorem dayFromYear_mono {a b : Int} (h : a ≤ b) : dayFromYear a ≤ dayFromYear b := by
  obtain ⟨n, rfl⟩ := Int.le.dest h
  induction n with
  | zero => simp
  | succ k ih =>
    have e : a + ((k + 1 : Nat) : Int) = (a + (k : Int)) + 1 := by push_cast; ring
    rw [e, dayFromYear_succ]
    have h2 := daysInYear_bounds (a + (k : Int))
    omega

theorem guess_lower {t y : Int} (h : dayFromYear y ≤ t) : y - 1 ≤ yearFromDayGuess t := by
  unfold dayFromYear yearFromDayGuess at *
  omega

theorem guess_upper {t y : Int} (h : t < dayFromYear (y + 1)) : yearFromDayGuess t ≤ y + 1 := by
  unfold dayFromYear yearFromDayGuess at *
  omega

theorem year_window_inj {t u v : Int}
    (hu1 : dayFromYear u ≤ t) (hu2 : t < dayFromYear (u + 1))
    (hv1 : dayFromYear v ≤ t) (hv2 : t < dayFromYear (v + 1)) : u = v := by
  rcases lt_trichotomy u v with h | h | h
  · have := dayFromYear_mono (show u + 1 ≤ v by omega)
    omega
  · exact h
  · have := dayFromYear_mono (show v + 1 ≤ u by omega)
    omega

theorem yearFromDay_eq {t y : Int} (h1 : dayFromYear y ≤ t) (h2 : t < dayFromYear (y + 1)) :
    yearFromDay t = y := by
  have h3 := guess_lower h1
  have h4 := guess_upper h2
  have mA := dayFromYear_mono (show yearFromDayGuess t - 2 ≤ y by omega)
  have mB := dayFromYear_mono (show y + 1 ≤ yearFromDayGuess t + 3 by omega)
  unfold yearFromDay
  split_ifs with c1 c2 c3 c4
  · refine year_window_inj (le_trans mA h1) ?_ h1 h2
    rw [show yearFromDayGuess t - 2 + 1 = yearFromDayGuess t - 1 by ring]
    exact c1
  · refine year_window_inj (not_lt.mp c1) ?_ h1 h2
    rw [show yearFromDayGuess t - 1 + 1 = yearFromDayGuess t by ring]
    exact c2
  · exact year_window_inj (not_lt.mp c2) c3 h1 h2
  · refine year_window_inj (not_lt.mp c3) ?_ h1 h2
    rw [show yearFromDayGuess t + 1 + 1 = yearFromDayGuess t + 2 by ring]
    exact c4
  · refine year_window_inj (not_lt.mp c4) ?_ h1 h2
    rw [show yearFromDayGuess t + 2 + 1 = yearFromDayGuess t + 3 by ring]
    exact lt_of_lt_of_le h2 mB

theorem leapInt_cases (y : Int) : leapInt y = 0 ∨ leapInt y = 1 := by
  unfold leapInt; split_ifs <;> omega

theorem monthChain {L d m0 : Int} (hL : L = 0 ∨ L = 1)
    (hm0 : 0 ≤ m0) (hm1 : m0 ≤ 11)
    (h1 : cumDaysBeforeMonth L m0 ≤ d) (h2 : d < cumDaysBeforeMonth L (m0 + 1)) :
    (if d < 31 then 0
     else if d < 59 + L then 1
     else if d < 90 + L then 2
     else if d < 120 + L then 3
     else if d < 151 + L then 4
     else if d < 181 + L then 5
     else if d < 212 + L then 6
     else if d < 243 + L then 7
     else if d < 273 + L then 8
     else if d < 304 + L then 9
     else if d < 334 + L then 10
     else 11) = m0 := by
  have hc : (m0 = 0 ∨ m0 = 1 ∨ m0 = 2) ∨ (m0 = 3 ∨ m0 = 4 ∨ m0 = 5) ∨
      (m0 = 6 ∨ m0 = 7 ∨ m0 = 8) ∨ (m0 = 9 ∨ m0 = 10 ∨ m0 = 11) := by omega
  rcases hc with (rfl|rfl|rfl)|(rfl|rfl|rfl)|(rfl|rfl|rfl)|(rfl|rfl|rfl) <;>
    simp only [cumDaysBeforeMonth] at h1 h2 <;> norm_num at h1 h2
  · rw [if_pos (by omega)]
  · obtain ⟨n1, hp⟩ : ¬d < 31 ∧ d < 59 + L := by omega
    rw [if_neg n1, if_pos hp]
  · obtain ⟨n1, n2, hp⟩ : ¬d < 31 ∧ ¬d < 59 + L ∧ d < 90 + L := by omega
    rw [if_neg n1, if_neg n2, if_pos hp]
  · obtain ⟨n1, n2, n3, hp⟩ : ¬d < 31 ∧ ¬d < 59 + L ∧ ¬d < 90 + L ∧ d < 120 + L := by omega
    rw [if_neg n1, if_neg n2, if_neg n3, if_pos hp]
  · obtain ⟨n1, n2, n3, n4, hp⟩ :
        ¬d < 31 ∧ ¬d < 59 + L ∧ ¬d < 90 + L ∧ ¬d < 120 + L ∧ d < 151 + L := by omega
    rw [if_neg n1, if_neg n2, if_neg n3, if_neg n4, if_pos hp]
  · obtain ⟨n1, n2, n3, n4, n5, hp⟩ :
        ¬d < 31 ∧ ¬d < 59 + L ∧ ¬d < 90 + L ∧ ¬d < 120 + L ∧ ¬d < 151 + L ∧
          d < 181 + L := by omega
    rw [if_neg n1, if_neg n2, if_neg n3, if_neg n4, if_neg n5, if_pos hp]
  · obtain ⟨n1, n2, n3, n4, n5, n6, hp⟩ :
        ¬d < 31 ∧ ¬d < 59 + L ∧ ¬d < 90 + L ∧ ¬d < 120 + L ∧ ¬d < 151 + L ∧
          ¬d < 181 + L ∧ d < 212 + L := by omega
    rw [if_neg n1, if_neg n2, if_neg n3, if_neg n4, if_neg n5, if_neg n6, if_pos hp]
  · obtain ⟨n1, n2, n3, n4, n5, n6, n7, hp⟩ :
        ¬d < 31 ∧ ¬d < 59 + L ∧ ¬d < 90 + L ∧ ¬d < 120 + L ∧ ¬d < 151 + L ∧
          ¬d < 181 + L ∧ ¬d < 212 + L ∧ d < 243 + L := by omega
    rw [if_neg n1, if_neg n2, if_neg n3, if_neg n4, if_neg n5, if_neg n6, if_neg n7,
      if_pos hp]
  · obtain ⟨n1, n2, n3, n4, n5, n6, n7, n8, hp⟩ :
        ¬d < 31 ∧ ¬d < 59 + L ∧ ¬d < 90 + L ∧ ¬d < 120 + L ∧ ¬d < 151 + L ∧
          ¬d < 181 + L ∧ ¬d < 212 + L ∧ ¬d < 243 + L ∧ d < 273 + L := by omega
    rw [if_neg n1, if_neg n2, if_neg n3, if_neg n4, if_neg n5, if_neg n6, if_neg n7,
      if_neg n8, if_pos hp]
  · obtain ⟨n1, n2, n3, n4, n5, n6, n7, n8, n9, hp⟩ :
        ¬d < 31 ∧ ¬d < 59 + L ∧ ¬d < 90 + L ∧ ¬d < 120 + L ∧ ¬d < 151 + L ∧
          ¬d < 181 + L ∧ ¬d < 212 + L ∧ ¬d < 243 + L ∧ ¬d < 273 + L ∧ d < 304 + L := by
      omega
    rw [if_neg n1, if_neg n2, if_neg n3, if_neg n4, if_neg n5, if_neg n6, if_neg n7,
      if_neg n8, if_neg n9, if_pos hp]
  · obtain ⟨n1, n2, n3, n4, n5, n6, n7, n8, n9, nA, hp⟩ :
        ¬d < 31 ∧ ¬d < 59 + L ∧ ¬d < 90 + L ∧ ¬d < 120 + L ∧ ¬d < 151 + L ∧
          ¬d < 181 + L ∧ ¬d < 212 + L ∧ ¬d < 243 + L ∧ ¬d < 273 + L ∧ ¬d < 304 + L ∧
          d < 334 + L := by omega
    rw [if_neg n1, if_neg n2, if_neg n3, if_neg n4, if_neg n5, if_neg n6, if_neg n7,
      if_neg n8, if_neg n9, if_neg nA, if_pos hp]
  · obtain ⟨n1, n2, n3, n4, n5, n6, n7, n8, n9, nA, nB⟩ :
        ¬d < 31 ∧ ¬d < 59 + L ∧ ¬d < 90 + L ∧ ¬d < 120 + L ∧ ¬d < 151 + L ∧
          ¬d < 181 + L ∧ ¬d < 212 + L ∧ ¬d < 243 + L ∧ ¬d < 273 + L ∧ ¬d < 304 + L ∧
          ¬d < 334 + L := by omega
    rw [if_neg n1, if_neg n2, if_neg n3, if_neg n4, if_neg n5, if_neg n6, if_neg n7,
      if_neg n8, if_neg n9, if_neg nA, if_neg nB]

theorem monthFromDay_eq_of {t y m0 : Int} (hy : yearFromDay t = y)
    (hm0 : 0 ≤ m0) (hm1 : m0 ≤ 11)
    (h1 : cumDaysBeforeMonth (leapInt y) m0 ≤ dayWithinYear t)
    (h2 : dayWithinYear t < cumDaysBeforeMonth (leapInt y) (m0 + 1)) :
    monthFromDay t = m0 := by
  unfold monthFromDay
  rw [hy]
  exact monthChain (leapInt_cases y) hm0 hm1 h1 h2

theorem daysInYear_eq_leap (y : Int) : daysInYear y = 365 + leapInt y := by
  unfold leapInt
  split_ifs with h
  · omega
  · have := daysInYear_bounds y
    omega

theorem leapInt_isLeap (y : Int) : leapInt y = if isLeapYearG y then 1 else 0 := by
  unfold leapInt daysInYear isLeapYearG
  by_cases h4 : y % 4 = 0 <;> by_cases h100 : y % 100 = 0 <;> by_cases h400 : y % 400 = 0 <;>
    simp [h4, h100, h400] <;> omega

theorem cum_bounds {L m : Int} (hL0 : 0 ≤ L) (h0 : 0 ≤ m) (h1 : m ≤ 12) :
    0 ≤ cumDaysBeforeMonth L m ∧ cumDaysBeforeMonth L m ≤ 365 + L := by
  interval_cases m <;> norm_num [cumDaysBeforeMonth] <;> omega

theorem cum_succ_lb {L k : Int} (hL : 0 ≤ L) (h0 : 0 ≤ k) (h1 : k ≤ 11) :
    28 ≤ cumDaysBeforeMonth L (k + 1) - cumDaysBeforeMonth L k := by
  interval_cases k <;> norm_num [cumDaysBeforeMonth] <;> omega

theorem monthLength_eq {y m : Int} (h1 : 1 ≤ m) (h2 : m ≤ 12) :
    monthLength y m =
      cumDaysBeforeMonth (leapInt y) m - cumDaysBeforeMonth (leapInt y) (m - 1) := by
  have hl := leapInt_isLeap y
  cases hb : isLeapYearG y <;> rw [hb] at hl <;> simp at hl <;>
    interval_cases m <;>
    norm_num [cumDaysBeforeMonth, monthLength, hb, hl]

theorem calendar_roundtrip {y k d : Int} (hm0 : 0 ≤ k) (hm1 : k ≤ 11)
    (hd1 : 1 ≤ d)
    (hd2 : d ≤ cumDaysBeforeMonth (leapInt y) (k + 1) - cumDaysBeforeMonth (leapInt y) k) :
    yearFromDay (dayFromYear y + cumDaysBeforeMonth (leapInt y) k + (d - 1)) = y
    ∧ monthFromDay (dayFromYear y + cumDaysBeforeMonth (leapInt y) k + (d - 1)) = k
    ∧ dateFromDay (dayFromYear y + cumDaysBeforeMonth (leapInt y) k + (d - 1)) = d := by
  have hL := leapInt_cases y
  have hcnn := cum_bounds (show (0:Int) ≤ leapInt y by omega) hm0 (by omega) (L := leapInt y)
  have hcub := cum_bounds (show (0:Int) ≤ leapInt y by omega) (show 0 ≤ k + 1 by omega)
    (show k + 1 ≤ 12 by omega) (L := leapInt y)
  have hdy := daysInYear_eq_leap y
  have hy : yearFromDay (dayFromYear y + cumDaysBeforeMonth (leapInt y) k + (d - 1)) = y := by
    apply yearFromDay_eq
    · omega
    · rw [dayFromYear_succ]
      omega
  have hdw : dayWithinYear (dayFromYear y + cumDaysBeforeMonth (leapInt y) k + (d - 1)) =
      cumDaysBeforeMonth (leapInt y) k + (d - 1) := by
    unfold dayWithinYear
    rw [hy]
    omega
  have hm : monthFromDay (dayFromYear y + cumDaysBeforeMonth (leapInt y) k + (d - 1)) = k :=
    monthFromDay_eq_of hy hm0 hm1 (by omega) (by omega)
  refine ⟨hy, hm, ?_⟩
  unfold dateFromDay
  rw [hy, hm, hdw]
  omega

theorem makeDay_eq {y m0 : Int} (d : Int) (h0 : 0 ≤ m0) (h1 : m0 ≤ 11) :
    makeDay y m0 d = dayFromYear y + cumDaysBeforeMonth (leapInt y) m0 + (d - 1) := by
  unfold makeDay
  rw [show m0 / 12 = 0 by omega, show m0 % 12 = m0 by omega, add_zero]

theorem jsPrevDayNum {y m d : Int} (hm1 : 1 ≤ m) (hm2 : m ≤ 12)
    (hd1 : 1 ≤ d) (hd2 : d ≤ monthLength y m) :
    yearFromDay (makeDay (yearFromDay (makeDay y (m - 1) d)) (monthFromDay (makeDay y (m - 1) d))
        (dateFromDay (makeDay y (m - 1) d) - 1)) = (prevCalendarDay y m d).1
    ∧ monthFromDay (makeDay (yearFromDay (makeDay y (m - 1) d)) (monthFromDay (makeDay y (m - 1) d))
        (dateFromDay (makeDay y (m - 1) d) - 1)) + 1 = (prevCalendarDay y m d).2.1
    ∧ dateFromDay (makeDay (yearFromDay (makeDay y (m - 1) d)) (monthFromDay (makeDay y (m - 1) d))
        (dateFromDay (makeDay y (m - 1) d) - 1)) = (prevCalendarDay y m d).2.2 := by
  have hL := leapInt_cases y
  have hml := monthLength_eq (y := y) hm1 hm2
  have e0 : makeDay y (m - 1) d =
      dayFromYear y + cumDaysBeforeMonth (leapInt y) (m - 1) + (d - 1) :=
    makeDay_eq d (by omega) (by omega)
  have rt0 := calendar_roundtrip (y := y) (k := m - 1) (d := d) (by omega) (by omega) hd1
    (by rw [show m - 1 + 1 = m by ring]; omega)
  rw [e0, rt0.1, rt0.2.1, rt0.2.2, makeDay_eq (d - 1) (by omega) (by omega)]
  by_cases hd : 2 ≤ d
  · have rt1 := calendar_roundtrip (y := y) (k := m - 1) (d := d - 1) (by omega) (by omega)
      (by omega) (by rw [show m - 1 + 1 = m by ring]; omega)
    unfold prevCalendarDay
    rw [if_pos hd]
    dsimp only
    refine ⟨rt1.1, ?_, rt1.2.2⟩
    have := rt1.2.1
    omega
  · have hdeq : d = 1 := by omega
    subst hdeq
    by_cases hm : 2 ≤ m
    · have hml2 := monthLength_eq (y := y) (m := m - 1) (by omega) (by omega)
      rw [show m - 1 - 1 = m - 2 by ring] at hml2
      have hlb := cum_succ_lb (L := leapInt y) (k := m - 2) (by omega) (by omega) (by omega)
      rw [show m - 2 + 1 = m - 1 by ring] at hlb
      rw [show dayFromYear y + cumDaysBeforeMonth (leapInt y) (m - 1) + (1 - 1 - 1) =
          dayFromYear y + cumDaysBeforeMonth (leapInt y) (m - 2) + (monthLength y (m - 1) - 1)
          from by omega]
      have rt2 := calendar_roundtrip (y := y) (k := m - 2) (d := monthLength y (m - 1))
        (by omega) (by omega) (by omega)
        (by rw [show m - 2 + 1 = m - 1 by ring]; omega)
      unfold prevCalendarDay
      rw [if_neg (by omega), if_pos hm]
      dsimp only
      refine ⟨rt2.1, ?_, rt2.2.2⟩
      have := rt2.2.1
      omega
    · have hmeq : m = 1 := by omega
      subst hmeq
      have c0 : cumDaysBeforeMonth (leapInt y) (1 - 1) = 0 := by norm_num [cumDaysBeforeMonth]
      have hs := dayFromYear_succ (y - 1)
      rw [show y - 1 + 1 = y by ring] at hs
      have hdy' := daysInYear_eq_leap (y - 1)
      have hL' := leapInt_cases (y - 1)
      have c11 : cumDaysBeforeMonth (leapInt (y - 1)) 11 = 334 + leapInt (y - 1) := by
        norm_num [cumDaysBeforeMonth]
      have c12 : cumDaysBeforeMonth (leapInt (y - 1)) 12 = 365 + leapInt (y - 1) := by
        norm_num [cumDaysBeforeMonth]
      rw [show dayFromYear y + cumDaysBeforeMonth (leapInt y) (1 - 1) + (1 - 1 - 1) =
          dayFromYear (y - 1) + cumDaysBeforeMonth (leapInt (y - 1)) 11 + (31 - 1)
          from by omega]
      have rt3 := calendar_roundtrip (y := y - 1) (k := 11) (d := 31)
        (by omega) (by omega) (by omega) (by norm_num [cumDaysBeforeMonth])
      unfold prevCalendarDay
      rw [if_neg (by omega), if_neg (by omega)]
      dsimp only
      refine ⟨rt3.1, ?_, rt3.2.2⟩
      have := rt3.2.1
      omega


end Vps

/-! ## Workflow lemmas -/

namespace Vps

theorem captchaLoop_attempts_le (env : Nat → CaptchaAttemptInput) :
    ∀ (fuel attempt : Nat), (captchaLoopFrom env attempt fuel).attemptsUsed ≤ fuel := by
  intro fuel
  induction fuel with
  | zero => intro attempt; simp [captchaLoopFrom]
  | succ k ih =>
    intro attempt
    simp only [captchaLoopFrom]
    split
    · simp
    · have := ih (attempt + 1)
      simp only
      omega

theorem captchaStep_fills_len {i : CaptchaAttemptInput} {c : String}
    (h : c ∈ (captchaAttemptStep i).fills) : 4 ≤ c.length := by
  cases i with
  | noCaptcha content => simp [captchaAttemptStep] at h
  | netFailure => simp [captchaAttemptStep] at h
  | code s nav =>
    simp only [captchaAttemptStep] at h
    by_cases hs : s = "" ∨ s.length < 4
    · rw [if_pos hs] at h
      simp at h
    · rw [if_neg hs] at h
      push_neg at hs
      split at h <;> simp at h <;> subst h <;> omega

theorem captchaLoop_fills_len (env : Nat → CaptchaAttemptInput) :
    ∀ (fuel attempt : Nat) (c : String),
      c ∈ (captchaLoopFrom env attempt fuel).fills → 4 ≤ c.length := by
  intro fuel
  induction fuel with
  | zero => intro attempt c h; simp [captchaLoopFrom] at h
  | succ k ih =>
    intro attempt c h
    simp only [captchaLoopFrom] at h
    split at h
    · exact captchaStep_fills_len h
    · simp only [List.mem_append] at h
      rcases h with h | h
      · exact captchaStep_fills_len h
      · exact ih (attempt + 1) c h

theorem writesTo_append (name : String) (a b : List FsEvent) :
    writesTo name (a ++ b) = writesTo name a ++ writesTo name b := by
  simp [writesTo, List.filterMap_append]

theorem captchaStep_no_expire_write (i : CaptchaAttemptInput) :
    writesTo "expire.txt" (captchaAttemptStep i).fsWrites = [] := by
  have hne : ("no_captcha.html" : String) ≠ "expire.txt" := by decide
  cases i with
  | noCaptcha content => simp [captchaAttemptStep, writesTo, hne]
  | netFailure => simp [captchaAttemptStep, writesTo]
  | code s nav =>
    simp only [captchaAttemptStep]
    split_ifs <;> simp [writesTo]

theorem captchaStep_no_remove (i : CaptchaAttemptInput) (n : String) :
    FsEvent.remove n ∉ (captchaAttemptStep i).fsWrites := by
  cases i with
  | noCaptcha content => simp [captchaAttemptStep]
  | netFailure => simp [captchaAttemptStep]
  | code s nav =>
    simp only [captchaAttemptStep]
    split_ifs <;> simp

theorem captchaLoop_no_expire_write (env : Nat → CaptchaAttemptInput) :
    ∀ (fuel attempt : Nat),
      writesTo "expire.txt" (captchaLoopFrom env attempt fuel).fsWrites = [] := by
  intro fuel
  induction fuel with
  | zero => intro attempt; simp [captchaLoopFrom, writesTo]
  | succ k ih =>
    intro attempt
    simp only [captchaLoopFrom]
    split
    · exact captchaStep_no_expire_write (env attempt)
    · simp only [writesTo_append, captchaStep_no_expire_write, ih (attempt + 1)]
      simp

theorem captchaLoop_no_remove (env : Nat → CaptchaAttemptInput) :
    ∀ (fuel attempt : Nat) (n : String),
      FsEvent.remove n ∉ (captchaLoopFrom env attempt fuel).fsWrites := by
  intro fuel
  induction fuel with
  | zero => intro attempt n; simp [captchaLoopFrom]
  | succ k ih =>
    intro attempt n
    simp only [captchaLoopFrom]
    split
    · exact captchaStep_no_remove (env attempt) n
    · simp only [List.mem_append]
      push_neg
      exact ⟨captchaStep_no_remove (env attempt) n, ih (attempt + 1) n⟩

theorem runCaptcha_no_expire_write (captcha : Nat → CaptchaAttemptInput) :
    writesTo "expire.txt" (runCaptcha captcha).fsWrites = [] :=
  captchaLoop_no_expire_write captcha 3 1

theorem runCaptcha_no_remove (captcha : Nat → CaptchaAttemptInput) (n : String) :
    FsEvent.remove n ∉ (runCaptcha captcha).fsWrites :=
  captchaLoop_no_remove captcha 3 1 n

/-- Shape of the `try` block when a step before the CAPTCHA phase throws. -/
theorem runTry_early {env : Env} {msg : String} (h : env.earlyError = some msg) :
    runTry env =
      { scriptErrorMessage := errorMessage msg env.now, infoMessage := ""
        fsWrites := [], captchaFills := [], captchaAttempts := 0, captchaScreenshots := 0
        finalConfirmClicked := false, renewAvailableDate := "", currentExpireDate := ""
        outcome := .error } := by
  unfold runTry
  rw [h]

/-- Shape of the `try` block when the CAPTCHA loop exhausts its attempts. -/
theorem runTry_captchaFail {env : Env} (h : env.earlyError = none)
    (hs : (runCaptcha env.captcha).solved = false) :
    runTry env =
      { scriptErrorMessage := errorMessage captchaFailText env.now, infoMessage := ""
        fsWrites := (runCaptcha env.captcha).fsWrites
        captchaFills := (runCaptcha env.captcha).fills
        captchaAttempts := (runCaptcha env.captcha).attemptsUsed
        captchaScreenshots := (runCaptcha env.captcha).screenshots
        finalConfirmClicked := false, renewAvailableDate := ""
        currentExpireDate := formatChineseDate env.currentExpireDateRaw
        outcome := .error } := by
  unfold runTry
  rw [h]
  simp only [hs, if_true]

/-- Shape of the `try` block on the "too early to renew" branch. -/
theorem runTry_notYet {env : Env} (h : env.earlyError = none)
    (hs : (runCaptcha env.captcha).solved = true)
    (hm : hasSubstr notYetTimeMarker.data env.bodyText.data = true) :
    runTry env =
      { scriptErrorMessage := ""
        infoMessage :=
          notYetMessage
            (match findEligibleDateFrom env.bodyText.data with
             | some m1 => formatChineseDate m1
             | none => "")
            (formatChineseDate env.currentExpireDateRaw) env.now
        fsWrites := (runCaptcha env.captcha).fsWrites
        captchaFills := (runCaptcha env.captcha).fills
        captchaAttempts := (runCaptcha env.captcha).attemptsUsed
        captchaScreenshots := (runCaptcha env.captcha).screenshots
        finalConfirmClicked := false
        renewAvailableDate :=
          match findEligibleDateFrom env.bodyText.data with
          | some m1 => formatChineseDate m1
          | none => ""
        currentExpireDate := formatChineseDate env.currentExpireDateRaw
        outcome := .notYetEligible } := by
  unfold runTry
  rw [h]
  simp only [hs]
  rw [if_neg (by simp), if_pos hm]

/-- Shape of the `try` block on the confirmation-and-reverify branch. -/
theorem runTry_post {env : Env} (h : env.earlyError = none)
    (hs : (runCaptcha env.captcha).solved = true)
    (hm : hasSubstr notYetTimeMarker.data env.bodyText.data = false) :
    runTry env =
      { scriptErrorMessage :=
          match (postRenewalStep (if env.fileExists then jsTrim env.fileContent else "")
              (formatChineseDate env.currentExpireDateRaw) env.newExpireDateRaw
              env.now).thrownMessage with
          | some m => errorMessage m env.now
          | none => ""
        infoMessage :=
          (postRenewalStep (if env.fileExists then jsTrim env.fileContent else "")
            (formatChineseDate env.currentExpireDateRaw) env.newExpireDateRaw
            env.now).infoMessage
        fsWrites := (runCaptcha env.captcha).fsWrites ++
          (match (postRenewalStep (if env.fileExists then jsTrim env.fileContent else "")
              (formatChineseDate env.currentExpireDateRaw) env.newExpireDateRaw
              env.now).fileWrite with
           | some content => [FsEvent.write "expire.txt" content]
           | none => [])
        captchaFills := (runCaptcha env.captcha).fills
        captchaAttempts := (runCaptcha env.captcha).attemptsUsed
        captchaScreenshots := (runCaptcha env.captcha).screenshots
        finalConfirmClicked := true
        renewAvailableDate := ""
        currentExpireDate := formatChineseDate env.currentExpireDateRaw
        outcome :=
          (postRenewalStep (if env.fileExists then jsTrim env.fileContent else "")
            (formatChineseDate env.currentExpireDateRaw) env.newExpireDateRaw
            env.now).outcome } := by
  unfold runTry
  rw [h]
  simp only [hs]
  rw [if_neg (by simp), if_neg (by simp [hm])]

/-! ## Scanner and digit-rendering lemmas -/

theorem takeDigits_sound :
    ∀ (n : Nat) (cs ds rest : List Char), takeDigits n cs = some (ds, rest) →
      ds.length = n ∧ (∀ c ∈ ds, isAsciiDigit c = true) ∧ cs = ds ++ rest := by
  intro n
  induction n with
  | zero =>
    intro cs ds rest h
    simp only [takeDigits, Option.some.injEq, Prod.mk.injEq] at h
    obtain ⟨rfl, rfl⟩ := h
    simp
  | succ k ih =>
    intro cs ds rest h
    match cs with
    | [] => simp [takeDigits] at h
    | c :: cs' =>
      simp only [takeDigits] at h
      by_cases hc : isAsciiDigit c
      · rw [if_pos hc] at h
        cases hk : takeDigits k cs' with
        | none => rw [hk] at h; simp at h
        | some p =>
          obtain ⟨ds', rest'⟩ := p
          rw [hk] at h
          simp only [Option.some.injEq, Prod.mk.injEq] at h
          obtain ⟨rfl, rfl⟩ := h
          obtain ⟨l1, l2, l3⟩ := ih cs' ds' rest' hk
          refine ⟨by simp [l1], ?_, by simp [l3]⟩
          intro x hx
          rcases List.mem_cons.mp hx with rfl | hx
          · exact hc
          · exact l2 x hx
      · rw [if_neg hc] at h
        simp at h

theorem takeDigits_complete :
    ∀ (ds rest : List Char), (∀ c ∈ ds, isAsciiDigit c = true) →
      takeDigits ds.length (ds ++ rest) = some (ds, rest) := by
  intro ds
  induction ds with
  | nil => intro rest _; simp [takeDigits]
  | cons c ds' ih =>
    intro rest h
    simp only [List.length_cons, List.cons_append, takeDigits]
    rw [if_pos (h c (List.mem_cons_self c ds'))]
    simp only [List.append_eq]
    rw [ih rest (fun x hx => h x (List.mem_cons_of_mem c hx))]

theorem takeOneOrTwoDigits_sound (lit : Char) :
    ∀ (cs ds rest : List Char), takeOneOrTwoDigits lit cs = some (ds, rest) →
      (ds.length = 1 ∨ ds.length = 2) ∧ (∀ c ∈ ds, isAsciiDigit c = true)
      ∧ cs = ds ++ lit :: rest := by
  intro cs ds rest h
  match cs with
  | [] => simp [takeOneOrTwoDigits] at h
  | [a] => simp [takeOneOrTwoDigits] at h
  | a :: b :: cs' =>
    simp only [takeOneOrTwoDigits] at h
    by_cases ha : isAsciiDigit a
    · rw [if_pos ha] at h
      by_cases hb : isAsciiDigit b
      · rw [if_pos hb] at h
        cases cs' with
        | nil => simp at h
        | cons l cs'' =>
          dsimp only at h
          by_cases hl : l = lit
          · rw [if_pos hl] at h
            simp only [Option.some.injEq, Prod.mk.injEq] at h
            obtain ⟨rfl, rfl⟩ := h
            subst hl
            refine ⟨Or.inr rfl, ?_, rfl⟩
            intro x hx
            rcases List.mem_cons.mp hx with rfl | hx
            · exact ha
            · rcases List.mem_cons.mp hx with rfl | hx
              · exact hb
              · simp at hx
          · rw [if_neg hl] at h
            simp at h
      · rw [if_neg hb] at h
        by_cases hbl : b = lit
        · rw [if_pos hbl] at h
          simp only [Option.some.injEq, Prod.mk.injEq] at h
          obtain ⟨rfl, rfl⟩ := h
          subst hbl
          refine ⟨Or.inl rfl, ?_, rfl⟩
          intro x hx
          rcases List.mem_cons.mp hx with rfl | hx
          · exact ha
          · simp at hx
        · rw [if_neg hbl] at h
          simp at h
    · rw [if_neg ha] at h
      simp at h

theorem takeOneOrTwoDigits_complete (lit : Char) (ds rest : List Char)
    (hlen : ds.length = 1 ∨ ds.length = 2) (hd : ∀ c ∈ ds, isAsciiDigit c = true)
    (hlit : isAsciiDigit lit = false) :
    takeOneOrTwoDigits lit (ds ++ lit :: rest) = some (ds, rest) := by
  rcases hlen with h1 | h2
  · obtain ⟨a, rfl⟩ := List.length_eq_one.mp h1
    simp only [List.cons_append, List.nil_append, takeOneOrTwoDigits]
    rw [if_pos (hd a (by simp)), if_neg (by simp [hlit])]
    simp
  · obtain ⟨a, b, rfl⟩ := List.length_eq_two.mp h2
    simp only [List.cons_append, List.nil_append, takeOneOrTwoDigits]
    rw [if_pos (hd a (by simp)), if_pos (hd b (by simp))]
    simp

theorem matchDate12At_complete {Y M D : List Char} (rest : List Char)
    (hY : Y.length = 4) (hYd : ∀ c ∈ Y, isAsciiDigit c = true)
    (hM : M.length = 1 ∨ M.length = 2) (hMd : ∀ c ∈ M, isAsciiDigit c = true)
    (hD : D.length = 1 ∨ D.length = 2) (hDd : ∀ c ∈ D, isAsciiDigit c = true) :
    matchDate12At (Y ++ ('年' :: (M ++ ('月' :: (D ++ ('日' :: rest)))))) =
      some ((Y, M, D), rest) := by
  have h4 : takeDigits 4 (Y ++ ('年' :: (M ++ ('月' :: (D ++ ('日' :: rest)))))) =
      some (Y, '年' :: (M ++ ('月' :: (D ++ ('日' :: rest))))) := by
    conv_lhs => rw [← hY]
    exact takeDigits_complete Y ('年' :: (M ++ ('月' :: (D ++ ('日' :: rest))))) hYd
  unfold matchDate12At
  rw [h4]
  dsimp only
  rw [if_pos rfl, takeOneOrTwoDigits_complete '月' M (D ++ ('日' :: rest)) hM hMd (by decide)]
  dsimp only
  rw [takeOneOrTwoDigits_complete '日' D rest hD hDd (by decide)]

theorem matchDate22At_complete {Y M D : List Char} (rest : List Char)
    (hY : Y.length = 4) (hYd : ∀ c ∈ Y, isAsciiDigit c = true)
    (hM : M.length = 2) (hMd : ∀ c ∈ M, isAsciiDigit c = true)
    (hD : D.length = 2) (hDd : ∀ c ∈ D, isAsciiDigit c = true) :
    matchDate22At (Y ++ ('年' :: (M ++ ('月' :: (D ++ ('日' :: rest)))))) =
      some ((Y, M, D), rest) := by
  have h4 : takeDigits 4 (Y ++ ('年' :: (M ++ ('月' :: (D ++ ('日' :: rest)))))) =
      some (Y, '年' :: (M ++ ('月' :: (D ++ ('日' :: rest))))) := by
    conv_lhs => rw [← hY]
    exact takeDigits_complete Y ('年' :: (M ++ ('月' :: (D ++ ('日' :: rest))))) hYd
  have hMt : takeDigits 2 (M ++ ('月' :: (D ++ ('日' :: rest)))) =
      some (M, '月' :: (D ++ ('日' :: rest))) := by
    conv_lhs => rw [← hM]
    exact takeDigits_complete M ('月' :: (D ++ ('日' :: rest))) hMd
  have hDt : takeDigits 2 (D ++ ('日' :: rest)) = some (D, '日' :: rest) := by
    conv_lhs => rw [← hD]
    exact takeDigits_complete D ('日' :: rest) hDd
  unfold matchDate22At
  rw [h4]
  dsimp only
  rw [if_pos rfl, hMt]
  dsimp only
  rw [if_pos rfl, hDt]
  dsimp only
  rw [if_pos rfl]

theorem findDate12_head {Y M D : List Char} (rest : List Char)
    (hY : Y.length = 4) (hYd : ∀ c ∈ Y, isAsciiDigit c = true)
    (hM : M.length = 1 ∨ M.length = 2) (hMd : ∀ c ∈ M, isAsciiDigit c = true)
    (hD : D.length = 1 ∨ D.length = 2) (hDd : ∀ c ∈ D, isAsciiDigit c = true) :
    findDate12 (Y ++ ('年' :: (M ++ ('月' :: (D ++ ('日' :: rest)))))) = some (Y, M, D) := by
  have hmatch := matchDate12At_complete rest hY hYd hM hMd hD hDd
  obtain ⟨a, Y', rfl⟩ : ∃ a Y', Y = a :: Y' := by
    cases Y with
    | nil => simp at hY
    | cons a Y' => exact ⟨a, Y', rfl⟩
  simp only [List.cons_append] at hmatch ⊢
  simp only [findDate12]
  rw [hmatch]

theorem findDate22_head {Y M D : List Char} (rest : List Char)
    (hY : Y.length = 4) (hYd : ∀ c ∈ Y, isAsciiDigit c = true)
    (hM : M.length = 2) (hMd : ∀ c ∈ M, isAsciiDigit c = true)
    (hD : D.length = 2) (hDd : ∀ c ∈ D, isAsciiDigit c = true) :
    findDate22 (Y ++ ('年' :: (M ++ ('月' :: (D ++ ('日' :: rest)))))) = some (Y, M, D) := by
  have hmatch := matchDate22At_complete rest hY hYd hM hMd hD hDd
  obtain ⟨a, Y', rfl⟩ : ∃ a Y', Y = a :: Y' := by
    cases Y with
    | nil => simp at hY
    | cons a Y' => exact ⟨a, Y', rfl⟩
  simp only [List.cons_append] at hmatch ⊢
  simp only [findDate22]
  rw [hmatch]

theorem matchDate12At_sound {cs Y M D rest : List Char}
    (h : matchDate12At cs = some ((Y, M, D), rest)) :
    Y.length = 4 ∧ (∀ c ∈ Y, isAsciiDigit c = true)
    ∧ (M.length = 1 ∨ M.length = 2) ∧ (∀ c ∈ M, isAsciiDigit c = true)
    ∧ (D.length = 1 ∨ D.length = 2) ∧ (∀ c ∈ D, isAsciiDigit c = true) := by
  unfold matchDate12At at h
  cases h4 : takeDigits 4 cs with
  | none => rw [h4] at h; simp at h
  | some p =>
    obtain ⟨Y', r1⟩ := p
    rw [h4] at h
    obtain ⟨hl4, hd4, _⟩ := takeDigits_sound 4 cs Y' r1 h4
    dsimp only at h
    cases r1 with
    | nil => simp at h
    | cons c r2 =>
      dsimp only at h
      by_cases hc : c = '年'
      · rw [if_pos hc] at h
        cases hmo : takeOneOrTwoDigits '月' r2 with
        | none => rw [hmo] at h; simp at h
        | some q =>
          obtain ⟨M', r3⟩ := q
          rw [hmo] at h
          obtain ⟨hlM, hdM, _⟩ := takeOneOrTwoDigits_sound '月' r2 M' r3 hmo
          dsimp only at h
          cases hdd : takeOneOrTwoDigits '日' r3 with
          | none => rw [hdd] at h; simp at h
          | some w =>
            obtain ⟨D', r4⟩ := w
            rw [hdd] at h
            obtain ⟨hlD, hdD, _⟩ := takeOneOrTwoDigits_sound '日' r3 D' r4 hdd
            simp only [Option.some.injEq, Prod.mk.injEq] at h
            obtain ⟨⟨rfl, rfl, rfl⟩, rfl⟩ := h
            exact ⟨hl4, hd4, hlM, hdM, hlD, hdD⟩
      · rw [if_neg hc] at h
        simp at h

theorem findDate12_sound :
    ∀ (cs : List Char) {Y M D : List Char}, findDate12 cs = some (Y, M, D) →
      Y.length = 4 ∧ (∀ c ∈ Y, isAsciiDigit c = true)
      ∧ (M.length = 1 ∨ M.length = 2) ∧ (∀ c ∈ M, isAsciiDigit c = true)
      ∧ (D.length = 1 ∨ D.length = 2) ∧ (∀ c ∈ D, isAsciiDigit c = true) := by
  intro cs
  induction cs with
  | nil => intro Y M D h; simp [findDate12] at h
  | cons c cs' ih =>
    intro Y M D h
    simp only [findDate12] at h
    cases hm : matchDate12At (c :: cs') with
    | none => rw [hm] at h; exact ih h
    | some p =>
      obtain ⟨caps, r⟩ := p
      rw [hm] at h
      simp only [Option.some.injEq] at h
      subst h
      exact matchDate12At_sound hm

theorem string_length_data (l : List Char) : (String.mk l).length = l.length := by
  simp [String.length]

theorem padStart2_len2 {l : List Char} (h : l.length = 2) :
    padStart2 (String.mk l) = String.mk l := by
  unfold padStart2
  rw [if_neg]
  rw [string_length_data, h]
  omega

theorem padStart2_len1 {l : List Char} (h : l.length = 1) :
    (padStart2 (String.mk l)).data = '0' :: l := by
  unfold padStart2
  rw [if_pos (by rw [string_length_data, h]; omega), string_length_data, h]
  simp [String.data_append]

theorem digitChar_isDigit (n : Nat) : isAsciiDigit (digitChar n) = true := by
  have hr : n % 10 < 10 := Nat.mod_lt _ (by omega)
  simp only [digitChar]
  generalize n % 10 = r at hr ⊢
  interval_cases r <;> decide

theorem digitChar_toNat (n : Nat) : (digitChar n).toNat = 48 + n % 10 := by
  have hr : n % 10 < 10 := Nat.mod_lt _ (by omega)
  simp only [digitChar]
  generalize n % 10 = r at hr ⊢
  interval_cases r <;> decide

theorem natToCharsAux_congr :
    ∀ (f : Nat) {g n : Nat}, n < f → n < g →
      natToCharsAux f n = natToCharsAux g n := by
  intro f
  induction f with
  | zero => intro g n h1 _; omega
  | succ k ih =>
    intro g n h1 h2
    cases g with
    | zero => omega
    | succ g' =>
      simp only [natToCharsAux]
      by_cases hn : n < 10
      · rw [if_pos hn, if_pos hn]
      · rw [if_neg hn, if_neg hn, ih (by omega) (show n / 10 < g' by omega)]

theorem natToChars_eq_low {n : Nat} (h : n < 10) : natToChars n = [digitChar n] := by
  simp [natToChars, natToCharsAux, h]

theorem natToChars_eq_high {n : Nat} (h : 10 ≤ n) :
    natToChars n = natToChars (n / 10) ++ [digitChar (n % 10)] := by
  unfold natToChars
  simp only [natToCharsAux]
  rw [if_neg (by omega)]
  congr 1
  exact natToCharsAux_congr n (g := n / 10 + 1) (by omega) (by omega)

theorem natToChars_digits (n : Nat) : ∀ c ∈ natToChars n, isAsciiDigit c = true := by
  induction n using Nat.strong_induction_on with
  | _ n ih =>
    by_cases h : n < 10
    · rw [natToChars_eq_low h]
      intro c hc
      simp at hc
      subst hc
      exact digitChar_isDigit n
    · rw [natToChars_eq_high (by omega)]
      intro c hc
      rcases List.mem_append.mp hc with hc | hc
      · exact ih (n / 10) (by omega) c hc
      · simp at hc
        subst hc
        exact digitChar_isDigit (n % 10)

theorem digitsVal_append_singleton (xs : List Char) (c : Char) :
    digitsVal (xs ++ [c]) = digitsVal xs * 10 + (c.toNat - 48) := by
  simp [digitsVal, List.foldl_append]

theorem digitsVal_natToChars (n : Nat) : digitsVal (natToChars n) = n := by
  induction n using Nat.strong_induction_on with
  | _ n ih =>
    by_cases h : n < 10
    · rw [natToChars_eq_low h]
      simp [digitsVal, digitChar_toNat]
      omega
    · rw [natToChars_eq_high (by omega), digitsVal_append_singleton, ih (n / 10) (by omega),
        digitChar_toNat]
      omega

theorem natToChars_len4 {n : Nat} (h1 : 1000 ≤ n) (h2 : n ≤ 9999) :
    (natToChars n).length = 4 := by
  rw [natToChars_eq_high (by omega), natToChars_eq_high (show 10 ≤ n / 10 by omega),
    natToChars_eq_high (show 10 ≤ n / 10 / 10 by omega),
    natToChars_eq_low (show n / 10 / 10 / 10 < 10 by omega)]
  simp

theorem string_mk_data (s : String) : String.mk s.data = s := by
  cases s
  rfl

theorem data_nian : ("年" : String).data = ['年'] := rfl

theorem data_yue : ("月" : String).data = ['月'] := rfl

theorem data_ri : ("日" : String).data = ['日'] := rfl

/-- The value of `formatChineseDate` when the regex matches. -/
theorem formatChineseDate_eq_of_find {s : String} {Y M D : List Char}
    (hs : s ≠ "") (hfind : findDate12 s.data = some (Y, M, D)) :
    formatChineseDate s =
      String.mk Y ++ "年" ++ padStart2 (String.mk M) ++ "月" ++
        padStart2 (String.mk D) ++ "日" := by
  unfold formatChineseDate
  rw [if_neg hs, hfind]

/-- Character content of the formatted output. -/
theorem formatOutput_data (Y : List Char) (m2 d2 : String) :
    (String.mk Y ++ "年" ++ m2 ++ "月" ++ d2 ++ "日").data =
      Y ++ ('年' :: (m2.data ++ ('月' :: (d2.data ++ ('日' :: []))))) := by
  simp [String.data_append, data_nian, data_yue, data_ri]

/-- Padding a 1- or 2-digit capture yields 2 digits, and padding is
idempotent on the result. -/
theorem pad2_of_capture {l : List Char} (hlen : l.length = 1 ∨ l.length = 2)
    (hd : ∀ c ∈ l, isAsciiDigit c = true) :
    (padStart2 (String.mk l)).data.length = 2
    ∧ (∀ c ∈ (padStart2 (String.mk l)).data, isAsciiDigit c = true)
    ∧ padStart2 (String.mk (padStart2 (String.mk l)).data) = padStart2 (String.mk l) := by
  rcases hlen with h | h
  · have e1 : padStart2 (String.mk l) = String.mk ('0' :: l) := by
      conv_lhs => rw [← string_mk_data (padStart2 (String.mk l))]
      rw [padStart2_len1 h]
    rw [e1]
    refine ⟨by simp [h], ?_, ?_⟩
    · intro c hc
      rcases List.mem_cons.mp hc with rfl | hc
      · decide
      · exact hd c hc
    · exact padStart2_len2 (by simp [h])
  · have e : padStart2 (String.mk l) = String.mk l := padStart2_len2 h
    rw [e]
    exact ⟨h, hd, padStart2_len2 h⟩

theorem pad2_intToString {k : Int} (h0 : 0 ≤ k) (h1 : k ≤ 99) :
    (padStart2 (intToStringJs k)).data.length = 2
    ∧ (∀ c ∈ (padStart2 (intToStringJs k)).data, isAsciiDigit c = true)
    ∧ digitsVal (padStart2 (intToStringJs k)).data = k.toNat := by
  have hns : intToStringJs k = String.mk (natToChars k.toNat) := by
    unfold intToStringJs
    rw [if_neg (by omega)]
  rw [hns]
  by_cases hk : k.toNat < 10
  · have e1 : padStart2 (String.mk (natToChars k.toNat)) =
        String.mk ('0' :: natToChars k.toNat) := by
      conv_lhs => rw [← string_mk_data (padStart2 (String.mk (natToChars k.toNat)))]
      rw [padStart2_len1 (by rw [natToChars_eq_low hk]; rfl)]
    rw [e1, natToChars_eq_low hk]
    have hz : ('0' : Char).toNat = 48 := rfl
    refine ⟨by simp, ?_, ?_⟩
    · intro c hc
      rcases List.mem_cons.mp hc with rfl | hc
      · decide
      · simp at hc
        subst hc
        exact digitChar_isDigit _
    · simp [digitsVal, digitChar_toNat, hz]
      omega
  · have hh : (natToChars k.toNat).length = 2 := by
      rw [natToChars_eq_high (by omega), natToChars_eq_low (show k.toNat / 10 < 10 by omega)]
      simp
    rw [padStart2_len2 hh]
    exact ⟨hh, natToChars_digits _, digitsVal_natToChars _⟩

theorem intToStringJs_year {y : Int} (h1 : 1000 ≤ y) (h2 : y ≤ 9999) :
    (intToStringJs y).data = natToChars y.toNat := by
  unfold intToStringJs
  rw [if_neg (by omega)]

theorem chineseDateStr_data {y : Int} (m d : Int) (h1 : 1000 ≤ y) (h2 : y ≤ 9999) :
    (chineseDateStr y m d).data =
      natToChars y.toNat ++ ('年' :: ((padStart2 (intToStringJs m)).data ++
        ('月' :: ((padStart2 (intToStringJs d)).data ++ ('日' :: []))))) := by
  unfold chineseDateStr
  have hy := intToStringJs_year h1 h2
  simp [String.data_append, data_nian, data_yue, data_ri, hy]

theorem findDate22_chineseDateStr {y m d : Int} (hy1 : 1000 ≤ y) (hy2 : y ≤ 9999)
    (hm0 : 0 ≤ m) (hm1 : m ≤ 99) (hd0 : 0 ≤ d) (hd1 : d ≤ 99) :
    findDate22 (chineseDateStr y m d).data =
      some (natToChars y.toNat, (padStart2 (intToStringJs m)).data,
        (padStart2 (intToStringJs d)).data) := by
  rw [chineseDateStr_data m d hy1 hy2]
  obtain ⟨hml, hmd, _⟩ := pad2_intToString hm0 hm1
  obtain ⟨hdl, hdd, _⟩ := pad2_intToString hd0 hd1
  exact findDate22_head [] (natToChars_len4 (by omega) (by omega)) (natToChars_digits _)
    hml hmd hdl hdd

theorem monthLength_le {y m : Int} : monthLength y m ≤ 31 := by
  unfold monthLength
  split_ifs <;> omega

/-- The numeric body computes the previous calendar day, rendered with the
script's own formatting. -/
theorem getNextNum_prev {y m d : Int} (hy1 : 1000 ≤ y) (hy2 : y ≤ 9999)
    (hm1 : 1 ≤ m) (hm2 : m ≤ 12) (hd1 : 1 ≤ d) (hd2 : d ≤ monthLength y m) :
    getNextRenewAvailableDateNum y m d =
      chineseDateStr (prevCalendarDay y m d).1 (prevCalendarDay y m d).2.1
        (prevCalendarDay y m d).2.2 := by
  obtain ⟨hA, hB, hC⟩ := jsPrevDayNum hm1 hm2 hd1 hd2
  simp only [getNextRenewAvailableDateNum]
  rw [if_neg (by omega)]
  unfold chineseDateStr
  rw [hA, hB, hC]

/-- Cases of the outcome/file-write coupling of the classification block. -/
theorem postRenewal_fileWrite (l cur r now : String) :
    ((postRenewalStep l cur r now).outcome = Outcome.success →
      (postRenewalStep l cur r now).fileWrite = some (formatChineseDate r))
    ∧ ((postRenewalStep l cur r now).outcome ≠ Outcome.success →
      (postRenewalStep l cur r now).fileWrite = none) := by
  simp only [postRenewalStep]
  split_ifs <;> simp

/-! ## Claim theorems -/

/-- C1: For every pair of a persisted last-known expiration date `p` and a
freshly read post-renewal expiration date `f` (both normalized), the outcome
classification block yields `success` iff `f` is non-empty and differs from
`p`, `unchanged` iff `f` is non-empty and equals `p`, and the fatal-error
branch iff `f` is empty; the comparison is against the persisted value only —
the result does not depend on the pre-renewal `currentExpireDate`. -/
theorem postRenewal_classifier_iff (p f cur cur' now : String)
    (hp : formatChineseDate p = p) (hf : formatChineseDate f = f) :
    ((postRenewalStep p cur f now).outcome = Outcome.success ↔ f ≠ "" ∧ f ≠ p)
    ∧ ((postRenewalStep p cur f now).outcome = Outcome.unchanged ↔ f ≠ "" ∧ f = p)
    ∧ ((postRenewalStep p cur f now).outcome = Outcome.error ↔ f = "")
    ∧ postRenewalStep p cur f now = postRenewalStep p cur' f now := by
  simp only [postRenewalStep]
  rw [hf, hp]
  refine ⟨?_, ?_, ?_, by trivial⟩ <;> split_ifs with h1 h2 <;> simp_all

/-- Witness for C1: a concrete normalized pair classified as `success`. -/
theorem postRenewal_classifier_iff_witness :
    (postRenewalStep "2025年07月07日" "" "2025年08月07日" "T").outcome = Outcome.success
    ∧ formatChineseDate "2025年07月07日" = "2025年07月07日" :=
  ⟨((postRenewal_classifier_iff "2025年07月07日" "2025年08月07日" "" "" "T" (by decide)
      (by decide)).1).mpr (by decide), by decide⟩

/-- C2 counterexample: with the "too early" marker present on the page,
the CAPTCHA resolver has nevertheless already run — it consumed an attempt
and filled a recognized code — because the script runs the CAPTCHA loop
before inspecting the page text for the marker. -/
theorem captcha_resolver_runs_despite_marker :
    hasSubstr notYetTimeMarker.data envNotYet.bodyText.data = true
    ∧ (runTry envNotYet).captchaFills = ["12345"]
    ∧ (runTry envNotYet).captchaAttempts = 1
    ∧ (runTry envNotYet).outcome = Outcome.notYetEligible := by
  exact ⟨by decide, by decide, by decide, by decide⟩

/-- C2 amended: after the CAPTCHA phase (which runs regardless of the
marker), if the page text contains the "too early" marker the workflow
extracts the earliest eligible date, emits a `NotYetEligible` outcome
carrying both the eligible date and the retained current expiration date,
terminates without error and without the final renewal-confirmation click,
and leaves the expiration file untouched; the final confirmation click
happens only when the marker is absent. -/
theorem marker_branch_not_yet_eligible (env : Env)
    (he : env.earlyError = none)
    (hs : (runCaptcha env.captcha).solved = true) :
    (hasSubstr notYetTimeMarker.data env.bodyText.data = true →
      (runTry env).outcome = Outcome.notYetEligible
      ∧ (runTry env).scriptErrorMessage = ""
      ∧ (runTry env).finalConfirmClicked = false
      ∧ (runTry env).renewAvailableDate =
          (match findEligibleDateFrom env.bodyText.data with
           | some m1 => formatChineseDate m1
           | none => "")
      ∧ (runTry env).currentExpireDate = formatChineseDate env.currentExpireDateRaw
      ∧ (runTry env).infoMessage =
          notYetMessage (runTry env).renewAvailableDate (runTry env).currentExpireDate env.now
      ∧ writesTo "expire.txt" (runTry env).fsWrites = [])
    ∧ ((runTry env).finalConfirmClicked = true →
        hasSubstr notYetTimeMarker.data env.bodyText.data = false) := by
  constructor
  · intro hm
    rw [runTry_notYet he hs hm]
    exact ⟨rfl, rfl, rfl, rfl, rfl, rfl, captchaLoop_no_expire_write env.captcha 3 1⟩
  · intro hclick
    cases hmark : hasSubstr notYetTimeMarker.data env.bodyText.data with
    | false => rfl
    | true =>
      rw [runTry_notYet he hs hmark] at hclick
      simp at hclick

/-- Witness for C2 (amended) at the concrete "too early" run. -/
theorem marker_branch_not_yet_eligible_witness :
    (runTry envNotYet).outcome = Outcome.notYetEligible
    ∧ (runTry envNotYet).finalConfirmClicked = false
    ∧ (runTry envNotYet).renewAvailableDate = "2025年09月06日" := by
  have h := (marker_branch_not_yet_eligible envNotYet (by decide) (by decide)).1 (by decide)
  exact ⟨h.1, h.2.2.1, h.2.2.2.1.trans (by decide)⟩

/-- C3 counterexample: in the scenario (persisted `"2025-07-07"`, fresh raw
read `2025年08月07日`), normalization yields the locale string
`2025年08月07日`, not `"2025-08-07"`, and the value written to the state
file is `2025年08月07日`, not `"2025-08-07"`. -/
theorem success_scenario_not_hyphenated :
    (postRenewalStep "2025-07-07" "" "2025年08月07日" "T").fileWrite = some "2025年08月07日"
    ∧ formatChineseDate "2025年08月07日" ≠ "2025-08-07"
    ∧ (postRenewalStep "2025-07-07" "" "2025年08月07日" "T").fileWrite ≠ some "2025-08-07" := by
  exact ⟨by decide, by decide, by decide⟩

/-- C3 amended: persisted date `"2025-07-07"`, freshly read date
`2025年08月07日`: normalization yields the canonical zero-padded locale
form `2025年08月07日` (the `YYYY-MM-DD` equivalent in the source locale),
the outcome is `Success`, and the persisted state file is updated to
contain `2025年08月07日`. -/
theorem success_scenario_updates_file :
    formatChineseDate "2025年08月07日" = "2025年08月07日"
    ∧ (runTry envSuccess).outcome = Outcome.success
    ∧ writesTo "expire.txt" (runTry envSuccess).fsWrites = ["2025年08月07日"] := by
  exact ⟨by decide, by decide, by decide⟩

/-- C4: the CAPTCHA resolver performs at most 3 attempt cycles, and if it
exhausts them without success the workflow terminates in the fatal `Error`
state with the CAPTCHA-failure message. -/
theorem captcha_bounded_and_exhaustion_fatal (env : Env) :
    (runTry env).captchaAttempts ≤ 3
    ∧ (env.earlyError = none → (runCaptcha env.captcha).solved = false →
        (runTry env).outcome = Outcome.error
        ∧ (runTry env).scriptErrorMessage = errorMessage captchaFailText env.now) := by
  constructor
  · cases henv : env.earlyError with
    | some msg =>
      rw [runTry_early henv]
      simp
    | none =>
      cases hsol : (runCaptcha env.captcha).solved with
      | false =>
        rw [runTry_captchaFail henv hsol]
        exact captchaLoop_attempts_le env.captcha 3 1
      | true =>
        cases hmark : hasSubstr notYetTimeMarker.data env.bodyText.data with
        | true =>
          rw [runTry_notYet henv hsol hmark]
          exact captchaLoop_attempts_le env.captcha 3 1
        | false =>
          rw [runTry_post henv hsol hmark]
          exact captchaLoop_attempts_le env.captcha 3 1
  · intro he hs
    rw [runTry_captchaFail he hs]
    exact ⟨rfl, rfl⟩

/-- Witness for C4: all three attempts fail, the workflow errors out. -/
theorem captcha_bounded_and_exhaustion_fatal_witness :
    (runTry envCaptchaExhausted).captchaAttempts ≤ 3
    ∧ (runTry envCaptchaExhausted).outcome = Outcome.error :=
  ⟨(captcha_bounded_and_exhaustion_fatal envCaptchaExhausted).1,
   ((captcha_bounded_and_exhaustion_fatal envCaptchaExhausted).2 (by decide) (by decide)).1⟩

/-- C5: a recognized code that is empty or shorter than 4 characters is
never filled/submitted (every filled code has length ≥ 4, hence is
non-empty), and such a code is handled identically to a
recognition-service network failure (screenshot, continue). -/
theorem short_code_never_filled :
    (∀ (captcha : Nat → CaptchaAttemptInput) (c : String),
        c ∈ (runCaptcha captcha).fills → 4 ≤ c.length ∧ c ≠ "")
    ∧ (∀ (c : String) (nav : Bool), c.length < 4 →
        captchaAttemptStep (CaptchaAttemptInput.code c nav) =
          captchaAttemptStep CaptchaAttemptInput.netFailure) := by
  constructor
  · intro captcha c h
    have h4 : 4 ≤ c.length := captchaLoop_fills_len captcha 3 1 c h
    refine ⟨h4, ?_⟩
    intro he
    subst he
    simp at h4
  · intro c nav hlen
    simp only [captchaAttemptStep]
    rw [if_pos (Or.inr hlen)]

/-- Witness for C5: a filled 5-character code, and a 2-character code
handled like a network failure. -/
theorem short_code_never_filled_witness :
    (4 ≤ ("12345" : String).length ∧ "12345" ≠ "")
    ∧ captchaAttemptStep (CaptchaAttemptInput.code "ab" true) =
        captchaAttemptStep CaptchaAttemptInput.netFailure :=
  ⟨short_code_never_filled.1 (fun _ => CaptchaAttemptInput.code "12345" true) "12345" (by decide),
   short_code_never_filled.2 "ab" true (by decide)⟩

/-- C6: the cleanup/notification phase runs exactly once on every
execution path (whatever terminal state the `try` block reached), and at
most one chat notification is attempted/delivered per run. -/
theorem cleanup_once_and_single_notification (env : Env) :
    (runScript env).cleanupRuns = 1
    ∧ (runScript env).telegramCalls ≤ 1
    ∧ (runScript env).telegramDeliveries ≤ 1 := by
  unfold runScript runCleanup
  refine ⟨rfl, ?_, ?_⟩ <;> dsimp only <;> split_ifs <;> omega

/-- C8: the persisted expiration file is written exactly once with the
new date when the outcome is `Success`, is not written in any other
outcome, and is never removed. -/
theorem expire_file_frame (env : Env) :
    ((runTry env).outcome = Outcome.success →
      writesTo "expire.txt" (runTry env).fsWrites = [formatChineseDate env.newExpireDateRaw])
    ∧ ((runTry env).outcome ≠ Outcome.success →
      writesTo "expire.txt" (runTry env).fsWrites = [])
    ∧ (∀ n, FsEvent.remove n ∉ (runTry env).fsWrites) := by
  cases henv : env.earlyError with
  | some msg =>
    rw [runTry_early henv]
    exact ⟨fun h => by simp at h, fun _ => by simp [writesTo], fun n => by simp⟩
  | none =>
    cases hsol : (runCaptcha env.captcha).solved with
    | false =>
      rw [runTry_captchaFail henv hsol]
      exact ⟨fun h => by simp at h,
        fun _ => captchaLoop_no_expire_write env.captcha 3 1,
        fun n => captchaLoop_no_remove env.captcha 3 1 n⟩
    | true =>
      cases hmark : hasSubstr notYetTimeMarker.data env.bodyText.data with
      | true =>
        rw [runTry_notYet henv hsol hmark]
        exact ⟨fun h => by simp at h,
          fun _ => captchaLoop_no_expire_write env.captcha 3 1,
          fun n => captchaLoop_no_remove env.captcha 3 1 n⟩
      | false =>
        rw [runTry_post henv hsol hmark]
        have hpw := postRenewal_fileWrite (if env.fileExists then jsTrim env.fileContent else "")
          (formatChineseDate env.currentExpireDateRaw) env.newExpireDateRaw env.now
        refine ⟨?_, ?_, ?_⟩
        · intro h
          dsimp only
          rw [writesTo_append, runCaptcha_no_expire_write env.captcha, hpw.1 h]
          simp [writesTo]
        · intro h
          dsimp only
          rw [writesTo_append, runCaptcha_no_expire_write env.captcha, hpw.2 h]
          simp [writesTo]
        · intro n
          dsimp only
          cases hfw : (postRenewalStep (if env.fileExists then jsTrim env.fileContent else "")
              (formatChineseDate env.currentExpireDateRaw) env.newExpireDateRaw
              env.now).fileWrite with
          | none =>
            simp only [List.mem_append]
            push_neg
            exact ⟨runCaptcha_no_remove env.captcha n, by simp⟩
          | some c =>
            simp only [List.mem_append]
            push_neg
            exact ⟨runCaptcha_no_remove env.captcha n, by simp⟩

/-- Witness for C8: the success run writes the file once; the unchanged
run leaves it untouched; nothing is ever removed. -/
theorem expire_file_frame_witness :
    writesTo "expire.txt" (runTry envSuccess).fsWrites = ["2025年08月07日"]
    ∧ writesTo "expire.txt" (runTry envUnchanged).fsWrites = []
    ∧ FsEvent.remove "expire.txt" ∉ (runTry envSuccess).fsWrites := by
  refine ⟨?_, ?_, ?_⟩
  · exact ((expire_file_frame envSuccess).1 (by decide)).trans (by decide)
  · exact (expire_file_frame envUnchanged).2.1 (by decide)
  · exact (expire_file_frame envSuccess).2.2 "expire.txt"

/-- C9: an attempt that finds no inline base64 challenge image succeeds
immediately: the loop stops with `solved`, having consumed that single
attempt, filled no code, taken no failure screenshot, and raised no
error. -/
theorem no_captcha_immediate_success (captcha : Nat → CaptchaAttemptInput)
    (attempt fuel : Nat) (content : String)
    (hfuel : 1 ≤ fuel) (h : captcha attempt = CaptchaAttemptInput.noCaptcha content) :
    captchaLoopFrom captcha attempt fuel =
      { solved := true, attemptsUsed := 1, fills := [], screenshots := 0
        fsWrites := [FsEvent.write "no_captcha.html" content], reloads := 0 } := by
  cases fuel with
  | zero => omega
  | succ k => simp [captchaLoopFrom, h, captchaAttemptStep]

/-- Witness for C9 at a concrete captcha-free page. -/
theorem no_captcha_immediate_success_witness :
    captchaLoopFrom (fun _ => CaptchaAttemptInput.noCaptcha "<html>") 1 3 =
      { solved := true, attemptsUsed := 1, fills := [], screenshots := 0
        fsWrites := [FsEvent.write "no_captcha.html" "<html>"], reloads := 0 } :=
  no_captcha_immediate_success (fun _ => CaptchaAttemptInput.noCaptcha "<html>") 1 3 "<html>"
    (by decide) rfl

/-- C7: on every string matched by the year/month/day pattern, the
normalization `formatChineseDate` is idempotent. -/
theorem formatChineseDate_idempotent (s : String)
    (h : (findDate12 s.data).isSome = true) :
    formatChineseDate (formatChineseDate s) = formatChineseDate s := by
  obtain ⟨⟨Y, M, D⟩, hfind⟩ := Option.isSome_iff_exists.mp h
  have hs : s ≠ "" := by
    intro he
    subst he
    simp [findDate12] at hfind
  obtain ⟨hY, hYd, hM, hMd, hD, hDd⟩ := findDate12_sound s.data hfind
  have hfmt := formatChineseDate_eq_of_find hs hfind
  obtain ⟨hMlen, hMdig, hMpad⟩ := pad2_of_capture hM hMd
  obtain ⟨hDlen, hDdig, hDpad⟩ := pad2_of_capture hD hDd
  have hdata := formatOutput_data Y (padStart2 (String.mk M)) (padStart2 (String.mk D))
  rw [hfmt]
  have hne : (String.mk Y ++ "年" ++ padStart2 (String.mk M) ++ "月" ++
      padStart2 (String.mk D) ++ "日") ≠ "" := by
    intro he
    have hcd := congrArg String.data he
    rw [hdata] at hcd
    cases Y with
    | nil => simp at hY
    | cons a Y' => simp at hcd
  have hfind2 : findDate12 (String.mk Y ++ "年" ++ padStart2 (String.mk M) ++ "月" ++
      padStart2 (String.mk D) ++ "日").data =
      some (Y, (padStart2 (String.mk M)).data, (padStart2 (String.mk D)).data) := by
    rw [hdata]
    exact findDate12_head [] hY hYd (Or.inr hMlen) hMdig (Or.inr hDlen) hDdig
  rw [formatChineseDate_eq_of_find hne hfind2, hMpad, hDpad]

/-- Witness for C7 at a concrete unpadded date string. -/
theorem formatChineseDate_idempotent_witness :
    (findDate12 ("2025年7月7日" : String).data).isSome = true
    ∧ formatChineseDate (formatChineseDate "2025年7月7日") = formatChineseDate "2025年7月7日" :=
  ⟨by decide, formatChineseDate_idempotent "2025年7月7日" (by decide)⟩

/-- C10 counterexample: the input `0099年01月01日` is a zero-padded date
whose preceding calendar day is 0098-12-31, but the script returns
`1998年12月31日` because `new Date(99, …)` maps two-digit years to
1900 + year. -/
theorem small_year_counterexample :
    getNextRenewAvailableDate "0099年01月01日" = "1998年12月31日"
    ∧ prevCalendarDay 99 1 1 = (98, 12, 31)
    ∧ "1998年12月31日" ≠ "0098年12月31日" :=
  ⟨by decide, by decide, by decide⟩

/-- C10 amended: for every valid calendar date with year 1000–9999
rendered as `YYYY年MM月DD日` (the script's own rendering: unpadded year,
two-digit-padded month and day), `getNextRenewAvailableDate` returns the
immediately preceding calendar day in the same rendering, rolling over
month and year boundaries; and any input not matching the zero-padded
pattern yields the literal `未知`. -/
theorem getNextRenewAvailableDate_prev_day (y m d : Int)
    (hy : 1000 ≤ y ∧ y ≤ 9999) (hm : 1 ≤ m ∧ m ≤ 12)
    (hd : 1 ≤ d ∧ d ≤ monthLength y m) :
    getNextRenewAvailableDate (chineseDateStr y m d) =
      chineseDateStr (prevCalendarDay y m d).1 (prevCalendarDay y m d).2.1
        (prevCalendarDay y m d).2.2
    ∧ (∀ s : String, findDate22 s.data = none → getNextRenewAvailableDate s = "未知") := by
  constructor
  · have hml : monthLength y m ≤ 31 := monthLength_le
    have hfind := findDate22_chineseDateStr (m := m) (d := d) hy.1 hy.2 (by omega)
      (by omega) (by omega) (by omega)
    unfold getNextRenewAvailableDate
    rw [hfind]
    dsimp only
    have h1 : ((digitsVal (natToChars y.toNat) : Nat) : Int) = y := by
      rw [digitsVal_natToChars]
      omega
    have h2 : ((digitsVal (padStart2 (intToStringJs m)).data : Nat) : Int) = m := by
      rw [(pad2_intToString (by omega) (by omega)).2.2]
      omega
    have h3 : ((digitsVal (padStart2 (intToStringJs d)).data : Nat) : Int) = d := by
      rw [(pad2_intToString (by omega) (by omega)).2.2]
      omega
    rw [h1, h2, h3]
    exact getNextNum_prev hy.1 hy.2 hm.1 hm.2 hd.1 hd.2
  · intro s hnone
    unfold getNextRenewAvailableDate
    rw [hnone]

/-- Witness for C10 (amended): a month rollover and a non-matching input. -/
theorem getNextRenewAvailableDate_prev_day_witness :
    getNextRenewAvailableDate "2025年03月01日" = "2025年02月28日"
    ∧ getNextRenewAvailableDate "2025年7月7日" = "未知" := by
  have h := getNextRenewAvailableDate_prev_day 2025 3 1 (by decide) (by decide) (by decide)
  constructor
  · have h1 := h.1
    rw [show chineseDateStr 2025 3 1 = "2025年03月01日" from by decide] at h1
    exact h1.trans (by decide)
  · exact h.2 "2025年7月7日" (by decide)

end Vps

-- Concrete evaluations of whole runs.
example : (Vps.runTry Vps.envSuccess).outcome = Vps.Outcome.success := by decide
example : Vps.writesTo "expire.txt" (Vps.runTry Vps.envSuccess).fsWrites = ["2025年08月07日"] := by
  decide
example : (Vps.runTry Vps.envSuccess).captchaAttempts = 1 := by decide
example : (Vps.runScript Vps.envSuccess).telegramCalls = 1 := by decide
example : (Vps.runTry Vps.envUnchanged).outcome = Vps.Outcome.unchanged := by decide
example : (Vps.runTry Vps.envCaptchaExhausted).outcome = Vps.Outcome.error := by decide
example : (Vps.runTry Vps.envCaptchaExhausted).captchaAttempts = 3 := by decide
example : (Vps.runTry Vps.envCaptchaExhausted).captchaFills = [] := by decide
example : (Vps.runTry Vps.envCaptchaExhausted).scriptErrorMessage =
    Vps.errorMessage Vps.captchaFailText "2025-08-06 21:20" := by decide
example : (Vps.runTry Vps.envNotYet).outcome = Vps.Outcome.notYetEligible := by decide
example : (Vps.runTry Vps.envNotYet).captchaFills = ["12345"] := by decide
example : (Vps.runTry Vps.envNotYet).renewAvailableDate = "2025年09月06日" := by decide
example : (Vps.runTry Vps.envNotYet).finalConfirmClicked = false := by decide
